import Mathlib

/-!
# Verification of the OCD exposure tracking application

Shallow embedding of `src/OCDExposure.py`.  The application is a Tkinter
stopwatch with ten rating buttons.  Its state consists of the timer fields
`start_time`, `running`, `elapsed_time`, the list `data` of recorded
`(elapsed, rating)` pairs, and the enabled/disabled state of the buttons.

Wall-clock time (Python `time.time()`) is modelled as a rational number
passed explicitly to every operation that reads the clock.  Python floats
are modelled as exact rationals; `f"{x:.0f}"` and `f"{x:.2f}"` round the
value half-to-even, which `rhe` models.
-/

namespace OCDExposure

/-- Round half to even, as Python string formatting does when it rounds a
value to an integer number of decimal digits (`f"{x:.0f}"` applied to the
exact value of `x`). -/
def rhe (q : ℚ) : ℤ :=
  if q - ⌊q⌋ < 1/2 then ⌊q⌋
  else if 1/2 < q - ⌊q⌋ then ⌊q⌋ + 1
  else if ⌊q⌋ % 2 = 0 then ⌊q⌋ else ⌊q⌋ + 1

/-- The mutable state of `OCDExposureApp`.

* `start_time` is initialised to `None` in Python, but it is only ever read
  while `running` is true, which can only happen after `start_timer` has
  assigned it; we therefore initialise it to `0`.
* `buttonsEnabled` models the widget state of the ten rating buttons and
  the start/stop button together: they are all enabled at creation and
  `show_results` disables them all at once. -/
structure AppState where
  start_time : ℚ
  running : Bool
  elapsed_time : ℚ
  data : List (ℚ × ℕ)
  buttonsEnabled : Bool
deriving DecidableEq

/-- The state built by `__init__`. -/
def initState : AppState :=
  { start_time := 0, running := false, elapsed_time := 0, data := []
    buttonsEnabled := true }

/-- `update_timer` at wall-clock instant `now`: if running, commit
`elapsed_time = now - start_time` (and refresh the display label, which we
do not model); otherwise leave the state alone.  The re-scheduling via
`self.after(100, ...)` is modelled by tick events in traces. -/
def update_timer (now : ℚ) (s : AppState) : AppState :=
  if s.running then { s with elapsed_time := now - s.start_time } else s

/-- `start_timer` at instant `now`: if not running, set `running` and
adjust `start_time` for the already elapsed time so the timer resumes. -/
def start_timer (now : ℚ) (s : AppState) : AppState :=
  if !s.running then
    { s with running := true, start_time := now - s.elapsed_time }
  else s

/-- `stop_timer`: set `running` to false.  Nothing else. -/
def stop_timer (s : AppState) : AppState :=
  { s with running := false }

/-- `show_results`: disable the rating buttons and the start/stop button.
The results window, plot and save button are presentation only. -/
def show_results (s : AppState) : AppState :=
  { s with buttonsEnabled := false }

/-- `toggle_timer` at instant `now`: start if stopped, otherwise stop and
then show the results (which disables all buttons). -/
def toggle_timer (now : ℚ) (s : AppState) : AppState :=
  if !s.running then start_timer now s else show_results (stop_timer s)

/-- `record_rating` at instant `now`.  If running, append
`(time.time() - start_time, rating)` to `data` and hand the new pair to
`update_data_display` for rendering; the second component of the result is
the pair so handed over (`none` when the request is dropped). -/
def record_rating (rating : ℕ) (now : ℚ) (s : AppState) :
    AppState × Option (ℚ × ℕ) :=
  if s.running then
    ({ s with data := s.data ++ [(now - s.start_time, rating)] },
      some (now - s.start_time, rating))
  else (s, none)

/-- The elapsed-time reading at instant `now`.  The source computes this
inline: while running both `update_timer` and `record_rating` read
`time.time() - self.start_time`, and while stopped the last committed
`elapsed_time` is what remains. -/
def current_elapsed (s : AppState) (now : ℚ) : ℚ :=
  if s.running then now - s.start_time else s.elapsed_time

/-- `get_DisplayTime_String`: Python computes `min = seconds // 60`
(float floor division), `remainingSeconds = seconds % 60`
(equal to `seconds - 60 * (seconds // 60)` for the positive modulus 60),
and renders `f"{min:.0f}:{remainingSeconds:.0f}"`, each component rounded
half-to-even to an integer with no zero padding. -/
def get_DisplayTime_String (seconds : ℚ) : String :=
  toString (rhe ((⌊seconds / 60⌋ : ℤ) : ℚ)) ++ ":"
    ++ toString (rhe (seconds - 60 * ((⌊seconds / 60⌋ : ℤ) : ℚ)))

/-- The core of Python `f"{q:.2f}"` for `0 ≤ q`: round `100 * q` half to
even and print with exactly two digits after the point. -/
def fmt2core (q : ℚ) : String :=
  toString (rhe (100 * q) / 100) ++ "."
    ++ (if rhe (100 * q) % 100 < 10 then "0" else "")
    ++ toString (rhe (100 * q) % 100)

/-- Python `f"{q:.2f}"`, including the sign of a negative value. -/
def fmt2 (q : ℚ) : String :=
  if q < 0 then "-" ++ fmt2core (-q) else fmt2core q

/-- The rational number denoted by the two-decimal string `fmt2 q`
(for `0 ≤ q`): the rounded hundredths over 100. -/
def csvTimeValue (q : ℚ) : ℚ :=
  (rhe (100 * q) : ℚ) / 100

/-- The rows written by `save_results` once a filename is chosen: the
fixed header, then one row per entry, time to two decimal places and the
rating as its integer text. -/
def save_results (data : List (ℚ × ℕ)) : List (String × String) :=
  ("Time (s)", "Rating") :: data.map (fun p => (fmt2 p.1, toString p.2))

/-- A direct invocation of one of the app's methods, with the wall-clock
instant at which it runs. -/
inductive Call where
  | update (now : ℚ)
  | start (now : ℚ)
  | stop
  | record (rating : ℕ) (now : ℚ)
  | toggle (now : ℚ)
deriving DecidableEq

/-- Execute one method call. -/
def stepCall (c : Call) (s : AppState) : AppState :=
  match c with
  | .update t => update_timer t s
  | .start t => start_timer t s
  | .stop => stop_timer s
  | .record r t => (record_rating r t s).1
  | .toggle t => toggle_timer t s

/-- Execute a sequence of method calls. -/
def runCalls (cs : List Call) (s : AppState) : AppState :=
  cs.foldl (fun s c => stepCall c s) s

/-- A user-interface event: the periodic tick, or a press of the
start/stop button or of a rating button.  A press of a disabled button
does not invoke its command. -/
inductive Ev where
  | tick (now : ℚ)
  | press_toggle (now : ℚ)
  | press_rating (rating : ℕ) (now : ℚ)
deriving DecidableEq

/-- Execute one user-interface event. -/
def step (e : Ev) (s : AppState) : AppState :=
  match e with
  | .tick t => update_timer t s
  | .press_toggle t => if s.buttonsEnabled then toggle_timer t s else s
  | .press_rating r t => if s.buttonsEnabled then (record_rating r t s).1 else s

/-- Execute a sequence of user-interface events. -/
def run (es : List Ev) (s : AppState) : AppState :=
  es.foldl (fun s e => step e s) s

/-- The timer is running after every call of the sequence. -/
def statesRunning : AppState → List Call → Bool
  | _, [] => true
  | s, c :: cs => (stepCall c s).running && statesRunning (stepCall c s) cs

/-- The timer is stopped after every call of the sequence. -/
def statesStopped : AppState → List Call → Bool
  | _, [] => true
  | s, c :: cs => !(stepCall c s).running && statesStopped (stepCall c s) cs

/-- The recorded time offsets, in insertion order. -/
def offsets (s : AppState) : List ℚ :=
  s.data.map Prod.fst

/-- States reachable by method calls at non-decreasing instants, under the
discipline that `update_timer` has run at the moment of every `stop_timer`
call made while running (so the committed `elapsed_time` is fresh there).
The first index is the instant of the last call. -/
inductive ReachFresh : ℚ → AppState → Prop
  | init (t : ℚ) : ReachFresh t initState
  | update {t : ℚ} {s : AppState} (t' : ℚ) :
      ReachFresh t s → t ≤ t' → ReachFresh t' (update_timer t' s)
  | start {t : ℚ} {s : AppState} (t' : ℚ) :
      ReachFresh t s → t ≤ t' → ReachFresh t' (start_timer t' s)
  | stop {t : ℚ} {s : AppState} (t' : ℚ) :
      ReachFresh t s → t ≤ t' →
      (s.running = true → s.elapsed_time = t' - s.start_time) →
      ReachFresh t' (stop_timer s)
  | record {t : ℚ} {s : AppState} (r : ℕ) (t' : ℚ) :
      ReachFresh t s → t ≤ t' → ReachFresh t' ((record_rating r t' s).1)

/-!
## Helper lemmas
-/

/-- Rounding half to even moves a value by at most one half. -/
lemma rhe_bound (q : ℚ) : |(rhe q : ℚ) - q| ≤ 1/2 := by
  have hf := Int.floor_le q
  have hc := Int.lt_floor_add_one q
  rw [rhe]
  rcases lt_trichotomy (q - ⌊q⌋) (1/2) with h | h | h
  · rw [if_pos h, abs_le]
    constructor <;> linarith
  · rw [if_neg (by linarith), if_neg (by linarith)]
    split <;> (rw [abs_le]; constructor <;> push_cast <;> linarith)
  · rw [if_neg (by linarith), if_pos h, abs_le]
    constructor <;> push_cast <;> linarith

/-- Rounding half to even fixes integers. -/
lemma rhe_intCast (k : ℤ) : rhe (k : ℚ) = k := by
  rw [rhe, Int.floor_intCast]
  norm_num

/-- The value printed in the CSV time column is within half a hundredth of
the stored offset. -/
lemma csvTimeValue_close (q : ℚ) : |csvTimeValue q - q| ≤ 1/200 := by
  have h := rhe_bound (100 * q)
  have h2 : csvTimeValue q - q = ((rhe (100*q) : ℚ) - 100*q)/100 := by
    rw [csvTimeValue]; ring
  have h3 : |(100:ℚ)| = 100 := by norm_num
  rw [h2, abs_div, h3]
  linarith

/-- Floor of a natural number divided by sixty. -/
lemma floor_div_sixty (n : ℕ) : ⌊(n : ℚ) / 60⌋ = ((n / 60 : ℕ) : ℤ) := by
  have hdm := Nat.div_add_mod n 60
  have h1 : (60:ℚ) * ((n/60 : ℕ):ℚ) + ((n % 60 : ℕ):ℚ) = (n:ℚ) := by
    exact_mod_cast hdm
  have h2 : ((n % 60 : ℕ):ℚ) < 60 := by
    exact_mod_cast Nat.mod_lt n (by norm_num)
  have h0 : (0:ℚ) ≤ ((n % 60 : ℕ):ℚ) := by positivity
  have hcast : ((((n / 60 : ℕ) : ℤ)) : ℚ) = ((n / 60 : ℕ) : ℚ) := by
    norm_cast
  rw [Int.floor_eq_iff, hcast]
  constructor
  · rw [le_div_iff₀ (by norm_num : (0:ℚ) < 60)]
    linarith
  · rw [div_lt_iff₀ (by norm_num : (0:ℚ) < 60)]
    linarith

/-- The elapsed reading while running. -/
lemma current_elapsed_run {s : AppState} (h : s.running = true) (t : ℚ) :
    current_elapsed s t = t - s.start_time := by
  simp [current_elapsed, h]

/-- The elapsed reading while stopped. -/
lemma current_elapsed_stop {s : AppState} (h : s.running = false) (t : ℚ) :
    current_elapsed s t = s.elapsed_time := by
  simp [current_elapsed, h]

/-- A tick while stopped changes nothing. -/
lemma update_timer_stopped (t : ℚ) {s : AppState} (h : s.running = false) :
    update_timer t s = s := by
  simp [update_timer, h]

/-- A start while running changes nothing. -/
lemma start_timer_run_noop (t : ℚ) {s : AppState} (h : s.running = true) :
    start_timer t s = s := by
  simp [start_timer, h]

/-- The state component of a record made while running. -/
lemma record_run (r : ℕ) (t : ℚ) {s : AppState} (h : s.running = true) :
    (record_rating r t s).1
      = { s with data := s.data ++ [(t - s.start_time, r)] } := by
  simp [record_rating, h]

/-- The state component of a record made while stopped. -/
lemma record_stopped (r : ℕ) (t : ℚ) {s : AppState} (h : s.running = false) :
    (record_rating r t s).1 = s := by
  simp [record_rating, h]

/-- A method call made while running that leaves the timer running does not
move the anchor. -/
lemma stepCall_start_time (c : Call) (s : AppState) (hs : s.running = true)
    (h : (stepCall c s).running = true) :
    (stepCall c s).start_time = s.start_time := by
  cases c with
  | update t => simp [stepCall, update_timer, hs]
  | start t => simp [stepCall, start_timer, hs]
  | stop => simp [stepCall, stop_timer] at h
  | record r t => simp [stepCall, record_rating, hs]
  | toggle t =>
      simp [stepCall, toggle_timer, hs, show_results, stop_timer] at h

/-- A method call made while stopped that leaves the timer stopped leaves
the whole state unchanged. -/
lemma stepCall_stopped_fix (c : Call) (s : AppState) (hs : s.running = false)
    (h : (stepCall c s).running = false) : stepCall c s = s := by
  cases c with
  | update t => simp [stepCall, update_timer, hs]
  | start t => simp [stepCall, start_timer, hs] at h
  | stop => cases s; simp_all [stepCall, stop_timer]
  | record r t => simp [stepCall, record_rating, hs]
  | toggle t => simp [stepCall, toggle_timer, start_timer, hs] at h

/-- Once the timer is stopped and the buttons are disabled, every
user-interface event leaves the state unchanged. -/
lemma step_fix (e : Ev) (s : AppState) (hr : s.running = false)
    (hb : s.buttonsEnabled = false) : step e s = s := by
  cases e with
  | tick t => simp [step, update_timer, hr]
  | press_toggle t => simp [step, hb]
  | press_rating r t => simp [step, hb]

/-- Once the timer is stopped and the buttons are disabled, every sequence
of user-interface events leaves the state unchanged. -/
lemma run_fix (es : List Ev) (s : AppState) (hr : s.running = false)
    (hb : s.buttonsEnabled = false) : run es s = s := by
  induction es with
  | nil => rfl
  | cons e es ih =>
      show run es (step e s) = s
      rw [step_fix e s hr hb]
      exact ih

/-!
## Claims
-/

/-- C1, counterexample.  In the reachable state obtained by starting the
timer at instant 0, calling `stop_timer` at instant 1 leaves
`elapsed_time = 0`, whereas the true elapsed time `now - anchor` at the
moment of the stop call is 1: `stop_timer` does not commit. -/
theorem C1_cex :
    (runCalls [Call.start 0] initState).running = true ∧
    (runCalls [Call.start 0] initState).start_time = 0 ∧
    (stop_timer (runCalls [Call.start 0] initState)).running = false ∧
    (stop_timer (runCalls [Call.start 0] initState)).elapsed_time = 0 ∧
    (1:ℚ) - (runCalls [Call.start 0] initState).start_time = 1 ∧
    (0:ℚ) ≠ 1 := by
  norm_num [runCalls, stepCall, start_timer, stop_timer, initState]

/-- C1, amended.  `stop()` when already stopped is a no-op, and `stop()`
while running sets `running := false` and nothing else: `elapsed_time`
stays at the value last committed by `update_timer`, so the frozen elapsed
equals `now - anchor` only when `update_timer` has run at the moment of
the stop call. -/
theorem C1_amended : ∀ (s : AppState) (t : ℚ),
    (s.running = false → stop_timer s = s) ∧
    (stop_timer s).running = false ∧
    (stop_timer s).elapsed_time = s.elapsed_time ∧
    (s.running = true →
      (stop_timer (update_timer t s)).elapsed_time = t - s.start_time) := by
  intro s t
  refine ⟨?_, rfl, rfl, ?_⟩
  · intro h
    cases s
    simp_all [stop_timer]
  · intro h
    simp [stop_timer, update_timer, h]

/-- C1, witness for the amended theorem. -/
theorem C1_witness :
    stop_timer initState = initState ∧
    (stop_timer (update_timer 1 (start_timer 0 initState))).elapsed_time
      = 1 - (start_timer 0 initState).start_time := by
  exact ⟨(C1_amended initState 0).1 rfl,
    (C1_amended (start_timer 0 initState) 1).2.2.2 rfl⟩

/-- C2, counterexample.  In the reachable state obtained by starting the
timer at instant 0, `current_elapsed` at instant 1 reads 1; after
`stop(); start()` at that same instant it reads 0, because the stop did
not commit the uncommitted second: elapsed time is lost, so
`current_elapsed` is not continuous across the boundary. -/
theorem C2_cex :
    (runCalls [Call.start 0] initState).running = true ∧
    current_elapsed (runCalls [Call.start 0] initState) 1 = 1 ∧
    current_elapsed
      (start_timer 1 (stop_timer (runCalls [Call.start 0] initState))) 1 = 0 ∧
    (0:ℚ) ≠ 1 := by
  norm_num [runCalls, stepCall, start_timer, stop_timer, current_elapsed,
    initState]

/-- C2, amended.  `stop(); start()` resumes from the last committed
elapsed: after the resume, `current_elapsed` equals the `elapsed_time`
held at the stop (resuming sets `anchor = now - elapsed`), so the time
since the last `update_timer` tick is dropped; when `update_timer` runs
at the moment of the stop, `current_elapsed` is continuous across the
pause/resume boundary. -/
theorem C2_amended : ∀ (s : AppState) (t t' : ℚ), s.running = true →
    current_elapsed (start_timer t' (stop_timer s)) t' = s.elapsed_time ∧
    current_elapsed (start_timer t' (stop_timer (update_timer t s))) t'
      = current_elapsed s t := by
  intro s t t' h
  constructor
  · simp [current_elapsed, start_timer, stop_timer]
  · simp [current_elapsed, start_timer, stop_timer, update_timer, h]

/-- C2, witness for the amended theorem. -/
theorem C2_witness :
    current_elapsed (start_timer 2 (stop_timer (start_timer 0 initState))) 2
      = (start_timer 0 initState).elapsed_time ∧
    current_elapsed
      (start_timer 2 (stop_timer (update_timer 1 (start_timer 0 initState)))) 2
      = current_elapsed (start_timer 0 initState) 1 := by
  exact C2_amended (start_timer 0 initState) 1 2 rfl

/-- C3, confirmed.  For a rating in 1..10, `record_rating` while running
appends exactly one entry whose offset is the `current_elapsed` reading at
the call instant and whose rating is the given one, and hands that same
entry to `update_data_display` for rendering. -/
theorem C3_theorem : ∀ (s : AppState) (r : ℕ) (t : ℚ),
    s.running = true → 1 ≤ r → r ≤ 10 →
    (record_rating r t s).1.data = s.data ++ [(current_elapsed s t, r)] ∧
    (record_rating r t s).2 = some (current_elapsed s t, r) ∧
    (record_rating r t s).1.data.length = s.data.length + 1 := by
  intro s r t h _ _
  simp [record_rating, current_elapsed, h]

/-- C3, witness. -/
theorem C3_witness :
    (record_rating 4 1 (start_timer 0 initState)).1.data
      = (start_timer 0 initState).data
        ++ [(current_elapsed (start_timer 0 initState) 1, 4)] ∧
    (record_rating 4 1 (start_timer 0 initState)).2
      = some (current_elapsed (start_timer 0 initState) 1, 4) ∧
    (record_rating 4 1 (start_timer 0 initState)).1.data.length
      = (start_timer 0 initState).data.length + 1 := by
  exact C3_theorem (start_timer 0 initState) 4 1 rfl (by norm_num) (by norm_num)

/-- C4, confirmed.  `record_rating` while the timer is not running returns
the state unchanged and hands nothing to the display: no entry, no error,
and the length of the log is unchanged. -/
theorem C4_theorem : ∀ (s : AppState) (r : ℕ) (t : ℚ), s.running = false →
    record_rating r t s = (s, none) ∧
    (record_rating r t s).1.data.length = s.data.length := by
  intro s r t h
  simp [record_rating, h]

/-- C4, witness. -/
theorem C4_witness :
    record_rating 7 5 initState = (initState, none) ∧
    (record_rating 7 5 initState).1.data.length = initState.data.length := by
  exact C4_theorem initState 7 5 rfl

/-- C10, confirmed.  `stop_timer` touches only the `running` flag: the
committed elapsed duration, the anchor, the rating log and the button
state are exactly what they were before the call. -/
theorem C10_theorem : ∀ s : AppState,
    (stop_timer s).running = false ∧
    (stop_timer s).start_time = s.start_time ∧
    (stop_timer s).elapsed_time = s.elapsed_time ∧
    (stop_timer s).data = s.data ∧
    (stop_timer s).buttonsEnabled = s.buttonsEnabled :=
  fun _ => ⟨rfl, rfl, rfl, rfl, rfl⟩

/-- C5, confirmed.  Along any sequence of method calls: while the timer
stays running, `current_elapsed` read at non-decreasing instants is
non-decreasing; while the timer stays stopped, `current_elapsed` is
frozen, unchanged by the passage of real time. -/
theorem C5_theorem : ∀ (s : AppState) (cs : List Call) (t t' : ℚ),
    (s.running = true → statesRunning s cs = true → t ≤ t' →
      current_elapsed s t ≤ current_elapsed (runCalls cs s) t') ∧
    (s.running = false → statesStopped s cs = true →
      current_elapsed (runCalls cs s) t' = current_elapsed s t) := by
  intro s cs t t'
  induction cs generalizing s with
  | nil =>
      constructor
      · intro h _ ht
        simp only [runCalls, List.foldl_nil, current_elapsed, h]
        norm_num
        linarith
      · intro h _
        simp [runCalls, current_elapsed, h]
  | cons c cs ih =>
      constructor
      · intro h1 h2 ht
        simp only [statesRunning, Bool.and_eq_true] at h2
        obtain ⟨hr, hrest⟩ := h2
        have hst := stepCall_start_time c s h1 hr
        have h3 : current_elapsed s t = current_elapsed (stepCall c s) t := by
          simp [current_elapsed, h1, hr, hst]
        have h4 := (ih (stepCall c s)).1 hr hrest ht
        calc current_elapsed s t
            = current_elapsed (stepCall c s) t := h3
          _ ≤ current_elapsed (runCalls cs (stepCall c s)) t' := h4
          _ = current_elapsed (runCalls (c :: cs) s) t' := rfl
      · intro h1 h2
        simp only [statesStopped, Bool.and_eq_true, Bool.not_eq_true'] at h2
        obtain ⟨hr, hrest⟩ := h2
        have hfix := stepCall_stopped_fix c s h1 hr
        have : runCalls (c :: cs) s = runCalls cs s := by
          show runCalls cs (stepCall c s) = runCalls cs s
          rw [hfix]
        rw [this]
        rw [hfix] at hrest
        exact (ih s).2 h1 hrest

/-- C5, witness: a running stretch with a tick and a record, and a stopped
stretch with a tick and a dropped record. -/
theorem C5_witness :
    current_elapsed (start_timer 0 initState) 1
      ≤ current_elapsed
          (runCalls [Call.update 1, Call.record 5 1] (start_timer 0 initState)) 2 ∧
    current_elapsed (runCalls [Call.update 1, Call.record 5 1] initState) 2
      = current_elapsed initState 1 := by
  constructor
  · exact (C5_theorem (start_timer 0 initState) [Call.update 1, Call.record 5 1]
      1 2).1 rfl rfl (by norm_num)
  · exact (C5_theorem initState [Call.update 1, Call.record 5 1] 1 2).2 rfl rfl

/-- C6, counterexample.  The claim's own scenario, run as method calls at
non-decreasing instants with no `update_timer` tick: start at 0, record 4
at 1, stop, start at 2, record 9 at 5/2.  The stop leaves `elapsed_time`
at its stale value 0, so the second start rewinds the timer and the log
offsets come out as [1, 1/2]: strictly decreasing, not non-decreasing. -/
theorem C6_cex :
    offsets (runCalls [Call.start 0, Call.record 4 1, Call.stop, Call.start 2,
        Call.record 9 (5/2), Call.stop] initState) = [1, 1/2] ∧
    ¬ List.Chain' (· ≤ ·)
      (offsets (runCalls [Call.start 0, Call.record 4 1, Call.stop,
        Call.start 2, Call.record 9 (5/2), Call.stop] initState)) := by
  constructor <;>
    norm_num [offsets, runCalls, stepCall, start_timer, stop_timer,
      record_rating, initState]

/-- Invariant carried along a `ReachFresh` derivation: the recorded
offsets form a non-decreasing chain, and every recorded offset is at most
the current elapsed-time reading. -/
lemma reachFresh_inv {t : ℚ} {s : AppState} (h : ReachFresh t s) :
    List.Chain' (· ≤ ·) (offsets s) ∧
    ∀ o ∈ offsets s, o ≤ current_elapsed s t := by
  induction h with
  | init t => simp [offsets, initState]
  | @update t s t' hR hle ih =>
      obtain ⟨ihc, ihb⟩ := ih
      cases hrun : s.running with
      | false =>
          rw [update_timer_stopped t' hrun]
          refine ⟨ihc, fun o ho => ?_⟩
          rw [current_elapsed_stop hrun]
          rw [current_elapsed_stop hrun] at ihb
          exact ihb o ho
      | true =>
          have hu : update_timer t' s
              = { s with elapsed_time := t' - s.start_time } := by
            simp [update_timer, hrun]
          rw [hu]
          refine ⟨ihc, fun o ho => ?_⟩
          rw [current_elapsed_run (show AppState.running
            { s with elapsed_time := t' - s.start_time } = true from hrun)]
          have hb := ihb o ho
          rw [current_elapsed_run hrun] at hb
          show o ≤ t' - s.start_time
          linarith
  | @start t s t' hR hle ih =>
      obtain ⟨ihc, ihb⟩ := ih
      cases hrun : s.running with
      | false =>
          have hs : start_timer t' s
              = { s with running := true, start_time := t' - s.elapsed_time } := by
            simp [start_timer, hrun]
          rw [hs]
          refine ⟨ihc, fun o ho => ?_⟩
          have hb := ihb o ho
          rw [current_elapsed_stop hrun] at hb
          rw [current_elapsed_run rfl]
          show o ≤ t' - (t' - s.elapsed_time)
          linarith
      | true =>
          rw [start_timer_run_noop t' hrun]
          refine ⟨ihc, fun o ho => ?_⟩
          have hb := ihb o ho
          rw [current_elapsed_run hrun] at hb
          rw [current_elapsed_run hrun]
          linarith
  | @stop t s t' hR hle hfresh ih =>
      obtain ⟨ihc, ihb⟩ := ih
      refine ⟨ihc, fun o ho => ?_⟩
      have hb := ihb o ho
      rw [current_elapsed_stop (show (stop_timer s).running = false from rfl)]
      show o ≤ s.elapsed_time
      cases hrun : s.running with
      | false =>
          rw [current_elapsed_stop hrun] at hb
          exact hb
      | true =>
          rw [current_elapsed_run hrun] at hb
          rw [hfresh hrun]
          linarith
  | @record t s r t' hR hle ih =>
      obtain ⟨ihc, ihb⟩ := ih
      cases hrun : s.running with
      | false =>
          rw [record_stopped r t' hrun]
          refine ⟨ihc, fun o ho => ?_⟩
          have hb := ihb o ho
          rw [current_elapsed_stop hrun] at hb
          rw [current_elapsed_stop hrun]
          exact hb
      | true =>
          rw [record_run r t' hrun]
          have hdata : offsets
              { s with data := s.data ++ [(t' - s.start_time, r)] }
              = offsets s ++ [t' - s.start_time] := by
            simp [offsets]
          rw [hdata]
          have hbound : ∀ a ∈ offsets s, a ≤ t' - s.start_time := by
            intro a ha
            have := ihb a ha
            rw [current_elapsed_run hrun] at this
            linarith
          refine ⟨?_, fun o ho => ?_⟩
          · rw [List.chain'_append]
            refine ⟨ihc, List.chain'_singleton _, fun a ha b hb => ?_⟩
            simp only [List.head?_cons, Option.mem_def, Option.some.injEq]
              at hb
            obtain ⟨hne, haeq⟩ := List.mem_getLast?_eq_getLast ha
            have hmem : a ∈ offsets s := haeq ▸ List.getLast_mem hne
            subst hb
            exact hbound a hmem
          · rw [current_elapsed_run (show AppState.running
              { s with data := s.data ++ [(t' - s.start_time, r)] } = true
              from hrun)]
            show o ≤ t' - s.start_time
            rcases List.mem_append.1 ho with hmem | hmem
            · exact hbound o hmem
            · simp only [List.mem_singleton] at hmem
              subst hmem
              exact le_refl _

/-- C6, amended.  Along any sequence of start, stop, record and tick calls
at non-decreasing instants in which `update_timer` has run at the moment
of every stop made while running (so the commit is fresh at each stop),
the recorded time offsets are non-decreasing in insertion order.  Without
that freshness the offsets can decrease across a pause, because the stop
discards the time elapsed since the last tick. -/
theorem C6_amended : ∀ (t : ℚ) (s : AppState), ReachFresh t s →
    List.Chain' (· ≤ ·) (offsets s) :=
  fun _ _ h => (reachFresh_inv h).1

/-- C6, witness: the scenario start 0, record 4 at 1, tick at 2, fresh
stop at 2, start at 3, record 9 at 4 yields the offsets 1 and 3, which are
non-decreasing with no reset to zero at the second start. -/
theorem C6_witness :
    List.Chain' (· ≤ ·)
      (offsets ((record_rating 9 4 (start_timer 3 (stop_timer (update_timer 2
        ((record_rating 4 1 (start_timer 0 initState)).1))))).1)) := by
  have d1 : ReachFresh 0 (start_timer 0 initState) :=
    ReachFresh.start 0 (ReachFresh.init 0) (le_refl 0)
  have d2 : ReachFresh 1 ((record_rating 4 1 (start_timer 0 initState)).1) :=
    ReachFresh.record 4 1 d1 (by norm_num)
  have d3 : ReachFresh 2
      (update_timer 2 ((record_rating 4 1 (start_timer 0 initState)).1)) :=
    ReachFresh.update 2 d2 (by norm_num)
  have d4 : ReachFresh 2
      (stop_timer (update_timer 2
        ((record_rating 4 1 (start_timer 0 initState)).1))) :=
    ReachFresh.stop 2 d3 (le_refl 2)
      (by intro _
          norm_num [update_timer, record_rating, start_timer, initState])
  have d5 : ReachFresh 3
      (start_timer 3 (stop_timer (update_timer 2
        ((record_rating 4 1 (start_timer 0 initState)).1)))) :=
    ReachFresh.start 3 d4 (by norm_num)
  have d6 : ReachFresh 4
      ((record_rating 9 4 (start_timer 3 (stop_timer (update_timer 2
        ((record_rating 4 1 (start_timer 0 initState)).1))))).1) :=
    ReachFresh.record 9 4 d5 (by norm_num)
  exact C6_amended 4 _ d6

/-- C7, counterexample.  `get_DisplayTime_String` does not zero-pad
(`65 ↦ "1:5"`, not `"01:05"`; `0 ↦ "0:0"`, not `"00:00"`) and rounds the
seconds component half-to-even instead of truncating
(`65.5 ↦ "1:6"`, where truncation would give 5 seconds). -/
theorem C7_cex :
    get_DisplayTime_String 65 = "1:5" ∧ "1:5" ≠ "01:05" ∧
    get_DisplayTime_String 0 = "0:0" ∧ "0:0" ≠ "00:00" ∧
    get_DisplayTime_String (131/2) = "1:6" ∧ "1:6" ≠ "01:05" := by
  refine ⟨?_, by decide, ?_, by decide, ?_, by decide⟩
  · norm_num [get_DisplayTime_String, rhe]; rfl
  · norm_num [get_DisplayTime_String, rhe]; rfl
  · norm_num [get_DisplayTime_String, rhe]; rfl

/-- C7, amended.  `get_DisplayTime_String` renders
`floor(d / 60)` and `round_half_even(d mod 60)` separated by a colon,
each as plain integer text with no zero padding; on whole-second inputs
this is minutes and seconds by truncation but unpadded, so
`0 ↦ "0:0"`, `65 ↦ "1:5"`, `3599 ↦ "59:59"`, `3600 ↦ "60:0"`, and on
fractional input the seconds component rounds: `65.5 ↦ "1:6"`. -/
theorem C7_amended :
    (∀ n : ℕ, get_DisplayTime_String (n : ℚ)
      = toString (n / 60) ++ ":" ++ toString (n % 60)) ∧
    get_DisplayTime_String 0 = "0:0" ∧
    get_DisplayTime_String 65 = "1:5" ∧
    get_DisplayTime_String 3599 = "59:59" ∧
    get_DisplayTime_String 3600 = "60:0" ∧
    get_DisplayTime_String (131/2) = "1:6" := by
  refine ⟨?_, ?_, ?_, ?_, ?_, ?_⟩
  · intro n
    have h2 : (n:ℚ) - 60 * ((((n / 60 : ℕ) : ℤ)) : ℚ)
        = (((n % 60 : ℕ) : ℤ) : ℚ) := by
      have hdm : (60:ℚ) * ((n/60 : ℕ):ℚ) + ((n % 60 : ℕ):ℚ) = (n:ℚ) := by
        exact_mod_cast Nat.div_add_mod n 60
      rw [Int.cast_natCast, Int.cast_natCast]
      linarith
    rw [get_DisplayTime_String, floor_div_sixty, h2, rhe_intCast, rhe_intCast]
    rfl
  · norm_num [get_DisplayTime_String, rhe]; rfl
  · norm_num [get_DisplayTime_String, rhe]; rfl
  · norm_num [get_DisplayTime_String, rhe]; rfl
  · norm_num [get_DisplayTime_String, rhe]; rfl
  · norm_num [get_DisplayTime_String, rhe]; rfl

/-- C8, counterexample.  For the stored offset 1/8 (exactly representable
in binary floating point), `f"{t:.2f}"` rounds half to even and prints
"0.12"; the parsed value 12/100 differs from 1/8 by exactly 0.005, which
is not less than 0.005. -/
theorem C8_cex :
    save_results [((1:ℚ)/8, 5)]
      = [("Time (s)", "Rating"), ("0.12", "5")] ∧
    csvTimeValue (1/8) = 12/100 ∧
    |csvTimeValue (1/8) - 1/8| = 1/200 ∧
    ¬ |csvTimeValue (1/8) - 1/8| < 1/200 := by
  have hfr : Int.fract ((25:ℚ)/2) = 1/2 := by norm_num [Int.fract]
  have habs : |csvTimeValue ((1:ℚ)/8) - 1/8| = 1/200 := by
    norm_num [csvTimeValue, rhe]
  refine ⟨?_, ?_, habs, ?_⟩
  · norm_num [save_results, fmt2, fmt2core, rhe, hfr]
    constructor <;> rfl
  · norm_num [csvTimeValue, rhe]
  · rw [habs]
    norm_num

/-- C8, amended.  The CSV rows are the fixed header followed by exactly one
row per entry in recording order, the time printed to two decimal places
and the rating as its integer text; the value the two-decimal string
denotes differs from the stored offset by at most 0.005 (equality occurs
exactly at ties, which round half to even). -/
theorem C8_amended : ∀ (data : List (ℚ × ℕ)),
    (save_results data).head? = some ("Time (s)", "Rating") ∧
    (save_results data).tail
      = data.map (fun p => (fmt2 p.1, toString p.2)) ∧
    (save_results data).length = data.length + 1 ∧
    ∀ p ∈ data, |csvTimeValue p.1 - p.1| ≤ 1/200 := by
  intro data
  refine ⟨rfl, rfl, ?_, fun p _ => csvTimeValue_close p.1⟩
  simp [save_results]

/-- C8, witness for the amended theorem. -/
theorem C8_witness :
    (save_results [((1:ℚ)/2, 7)]).head? = some ("Time (s)", "Rating") ∧
    |csvTimeValue ((1:ℚ)/2) - 1/2| ≤ 1/200 := by
  exact ⟨(C8_amended [((1:ℚ)/2, 7)]).1,
    (C8_amended [((1:ℚ)/2, 7)]).2.2.2 ((1:ℚ)/2, 7) (by simp)⟩

/-- C9, confirmed.  A press of the start/stop button while the timer is
running stops the timer and disables all controls; from then on no
sequence of user-interface events changes the state at all, so no entry is
ever appended and the timer never restarts. -/
theorem C9_theorem : ∀ (s : AppState) (t : ℚ) (es : List Ev),
    s.running = true → s.buttonsEnabled = true →
    (step (Ev.press_toggle t) s).running = false ∧
    (step (Ev.press_toggle t) s).buttonsEnabled = false ∧
    (step (Ev.press_toggle t) s).data = s.data ∧
    run es (step (Ev.press_toggle t) s) = step (Ev.press_toggle t) s := by
  intro s t es h1 h2
  have hstep : step (Ev.press_toggle t) s = show_results (stop_timer s) := by
    simp [step, h2, toggle_timer, h1]
  rw [hstep]
  exact ⟨rfl, rfl, rfl, run_fix es _ rfl rfl⟩

/-- C9, witness: stopping at instant 1 and then ticking, pressing a rating
button and pressing start/stop again all leave the state fixed. -/
theorem C9_witness :
    (step (Ev.press_toggle 1) (start_timer 0 initState)).running = false ∧
    (step (Ev.press_toggle 1) (start_timer 0 initState)).buttonsEnabled = false ∧
    (step (Ev.press_toggle 1) (start_timer 0 initState)).data
      = (start_timer 0 initState).data ∧
    run [Ev.tick 2, Ev.press_rating 3 3, Ev.press_toggle 4]
        (step (Ev.press_toggle 1) (start_timer 0 initState))
      = step (Ev.press_toggle 1) (start_timer 0 initState) := by
  exact C9_theorem (start_timer 0 initState) 1
    [Ev.tick 2, Ev.press_rating 3 3, Ev.press_toggle 4] rfl rfl

end OCDExposure
